import Mathlib

/-!
Shallow embedding of `github.py`, a command-line client for the GitHub
search API, together with theorems settling the specification claims
about it.

Conventions used throughout:
* Python strings are Lean `String`s; character-level algorithms work on
  `String.data` (a `List Char`) with structural recursion so that every
  definition evaluates by `rfl`/`decide`.
* Python exceptions are modelled by the inductive `PyErr`; fallible code
  returns `Except PyErr _`.  Reading a local variable that was never
  assigned raises `PyErr.unboundLocal` (Python UnboundLocalError).
* JSON values are the inductive `Json`; Python `dict`s are association
  lists whose lookup is first-match, mirroring unique-key dicts.
* Library calls that are not part of this repository (aiohttp network
  I/O, `r.json()`, `zlib.decompress` + `json.loads`) are abstracted as
  oracle inputs: the repository code under verification is the control
  flow around them.
-/

/-- Python `str.split(sep)` for a two-character separator `x y`
(used for `", "` and `"; "`): split on every non-overlapping
occurrence, left to right. -/
def splitOn2 (x y : Char) : List Char → List (List Char)
  | [] => [[]]
  | [c] => [[c]]
  | a :: b :: rest =>
    if a = x ∧ b = y then
      [] :: splitOn2 x y rest
    else
      match splitOn2 x y (b :: rest) with
      | s :: ss => (a :: s) :: ss
      | [] => [[a]]

/-- Python `str.split(sep, 1)` for a two-character separator:
`none` when the separator does not occur (Python then returns a
one-element list, and unpacking it into two variables raises
ValueError at the call sites modelled here). -/
def splitOnce2 (x y : Char) : List Char → Option (List Char × List Char)
  | [] => none
  | [_] => none
  | a :: b :: rest =>
    if a = x ∧ b = y then
      some ([], rest)
    else
      match splitOnce2 x y (b :: rest) with
      | some (l, r) => some (a :: l, r)
      | none => none

/-- Python `str.split(sep, 1)` for a one-character separator:
`some (before, after)` at the first occurrence, `none` if absent. -/
def splitOnce1 (sep : Char) : List Char → Option (List Char × List Char)
  | [] => none
  | c :: cs =>
    if c = sep then
      some ([], cs)
    else
      match splitOnce1 sep cs with
      | some (l, r) => some (c :: l, r)
      | none => none

/-- Python `str.split(sep)` for a one-character separator
(used for the repeated `'.'` splitting performed by `getjs` via its
split-once recursion, and for splitting a string into lines). -/
def splitAllOn (sep : Char) : List Char → List (List Char)
  | [] => [[]]
  | c :: cs =>
    if c = sep then
      [] :: splitAllOn sep cs
    else
      match splitAllOn sep cs with
      | s :: ss => (c :: s) :: ss
      | [] => [[c]]

/-- Python `str.find(c)`: index of the first occurrence, `-1` if absent. -/
def pyFind (l : List Char) (c : Char) : Int :=
  match l with
  | [] => -1
  | x :: xs =>
    if x = c then 0
    else
      let r := pyFind xs c
      if r < 0 then -1 else r + 1

/-- JSON-like values (`null`, booleans, integers, strings, arrays,
objects).  Objects are association lists; the source only ever builds
dicts with unique keys, so first-match lookup models `dict.__getitem__`. -/
inductive Json where
  | null
  | bool (b : Bool)
  | num (n : Int)
  | str (s : String)
  | arr (items : List Json)
  | obj (fields : List (String × Json))

/-- The Python exceptions the embedded code can raise.
`exnApi` is the bare `Exception(js.get('message'))` raised by
`GithubApi.get` on a non-200 status, carrying the looked-up message
value (Python `None` = `none`).  `exnCantFindApi` is the
`Exception("can't find '%s' api" % apiname)` raised by `getapi`.
`decodeError` stands for the JSONDecodeError raised by `r.json()`. -/
inductive PyErr where
  | keyError (k : String)
  | typeError
  | valueError
  | unboundLocal (v : String)
  | attributeError
  | exnCantFindApi (name : String)
  | exnApi (msg : Option Json)
  | decodeError

/-- `js[k]`: indexing a dict raises KeyError on a missing key;
indexing any non-dict value with a string key raises TypeError. -/
def jsIndex (js : Json) (k : String) : Except PyErr Json :=
  match js with
  | .obj kvs =>
    match kvs.lookup k with
    | some v => .ok v
    | none => .error (.keyError k)
  | _ => .error .typeError

/-- The iteration underlying `getjs`: Python splits the path at the
first `'.'` and recurses on `js[this]`, which indexes one segment at a
time in order; that split-once recursion traverses exactly the full
`'.'`-split of the path. -/
def getjsGo : Json → List String → Except PyErr Json
  | js, [] => .ok js
  | js, k :: rest =>
    match jsIndex js k with
    | .ok v => getjsGo v rest
    | .error e => .error e

/-- `getjs(js, path)` from `github.py`: resolve a dotted path by
repeatedly indexing into nested mappings. -/
def getjs (js : Json) (path : String) : Except PyErr Json :=
  getjsGo js ((splitAllOn '.' path.data).map List.asString)

/-- Claim-side reference resolver (from the specification words):
repeatedly index into nested mappings using each segment in order,
with no value (`none`) when a segment is missing or an intermediate
value is not a mapping. -/
def lookupPath : Json → List String → Option Json
  | js, [] => some js
  | .obj kvs, k :: rest =>
    match kvs.lookup k with
    | some v => lookupPath v rest
    | none => none
  | _, _ :: _ => none

/-- The characters of the relation descriptor `rel="last"` compared
against by `findlast`. -/
def relLast : List Char := "rel=\x22last\x22".data

/-- One-or-more decimal digits to a number (`int()` on the match). -/
def digitsToNat (ds : List Char) : Nat :=
  ds.foldl (fun n c => 10 * n + (c.toNat - '0'.toNat)) 0

/-- Try the regex `&page=(\d+)` at the head of the list: the literal
`&page=` followed by at least one digit, capturing the maximal digit
run (`\d` modelled as ASCII digits). -/
def matchAmpPage (l : List Char) : Option (List Char) :=
  match l with
  | '&' :: 'p' :: 'a' :: 'g' :: 'e' :: '=' :: rest =>
    let ds := rest.takeWhile Char.isDigit
    if ds = [] then none else some ds
  | _ => none

/-- `re.search(r'&page=(\d+)', last)`: leftmost match wins. -/
def rePageSearch : List Char → Option Nat
  | [] => none
  | c :: cs =>
    match matchAmpPage (c :: cs) with
    | some ds => some (digitsToNat ds)
    | none => rePageSearch cs

/-- The entry loop of `findlast` and the code after it.  The
accumulator models the local variable `last`: `none` means it was
never assigned.  Each entry is unpacked by `url, rel = l.split("; ", 1)`,
which raises ValueError when the separator is absent; after the loop,
`if not last` reads `last`, raising UnboundLocalError when no entry
matched `rel="last"` (and returning no value when the matched URL is
the empty, falsy string). -/
def findlastGo : List (List Char) → Option (List Char) → Except PyErr (Option Nat)
  | [], last =>
    match last with
    | none => .error (.unboundLocal "last")
    | some url =>
      if url = [] then .ok none
      else .ok (rePageSearch url)
  | entry :: rest, last =>
    match splitOnce2 ';' ' ' entry with
    | none => .error .valueError
    | some (url, rel) =>
      findlastGo rest (if rel = relLast then some url else last)

/-- `findlast(link)` from `github.py`: extract the last page number
from the value of the `Link` header (absent header = `none` argument). -/
def findlast (link : Option String) : Except PyErr (Option Nat) :=
  match link with
  | none => .ok none
  | some s =>
    if s.data = [] then .ok none
    else findlastGo (splitOn2 ',' ' ' s.data) none

/-- The authentication mechanisms a `GithubApi` instance can attach:
`basic` models `aiohttp.BasicAuth(user, pw)` passed to the session,
`tokenHeader` models the `Authorization` header value. -/
structure AuthState where
  basic : Option (String × String)
  tokenHeader : Option String
deriving DecidableEq

/-- The credential handling in `GithubApi.__init__`: with no (or a
falsy, empty) `args.auth` nothing is attached; with a first `':'` at
index > 0 the string is split once on `':'` into a basic-auth pair;
otherwise the whole string becomes an `Authorization: token <value>`
header. -/
def initAuth : Option String → AuthState
  | none => ⟨none, none⟩
  | some a =>
    if a.data = [] then ⟨none, none⟩
    else if pyFind a.data ':' > 0 then
      match splitOnce1 ':' a.data with
      | some (u, p) => ⟨some (List.asString u, List.asString p), none⟩
      | none => ⟨none, none⟩
    else ⟨none, some ("token " ++ a)⟩

/-- One HTTP response as `GithubApi.get` observes it.  `jsonBody` is
the outcome of the library call `await r.json()`, `gunzipJson` the
outcome of `json.loads(zlib.decompress(content, wbits=31))`; both are
oracle inputs since they are library code; the control flow of `get`
around them is what is verified. -/
structure HttpResponse where
  status : Nat
  content : List Nat
  jsonBody : Except PyErr Json
  gunzipJson : Except PyErr Json
  headers : List (String × String)

/-- `r._content.startswith(b'\x1f\x8b')`. -/
def gzipMagic (content : List Nat) : Bool :=
  match content with
  | 31 :: 139 :: _ => true
  | _ => false

/-- The `try/except` around body decoding in `GithubApi.get`.  The
result is the state of the local variable `js` after the block:
`some` when bound, `none` when the decode failure was swallowed (the
`except` clause falls through without re-raising when the body does
not start with the gzip magic bytes, leaving `js` unbound); the
fallback path re-raises its own failure, not the original one. -/
def decodeStep (r : HttpResponse) : Except PyErr (Option Json) :=
  match r.jsonBody with
  | .ok js => .ok (some js)
  | .error _ =>
    if gzipMagic r.content then
      match r.gunzipJson with
      | .ok js => .ok (some js)
      | .error e => .error e
    else .ok none

/-- `js.get('message')`: dict lookup returning `None` when absent;
calling `.get` on a non-dict raises AttributeError. -/
def jsGetMessage (js : Json) : Except PyErr (Option Json) :=
  match js with
  | .obj kvs => .ok (kvs.lookup "message")
  | _ => .error .attributeError

/-- `GithubApi.get(path, params)` after the response `r` arrived:
decode the body (with the gzip workaround), close the response, raise
`Exception(js.get('message'))` on a non-200 status (reading `js`
raises UnboundLocalError when the decode failure was swallowed), and
otherwise return the decoded body together with the response headers. -/
def GithubApi.get (r : HttpResponse) : Except PyErr (Json × List (String × String)) :=
  match decodeStep r with
  | .error e => .error e
  | .ok jsOpt =>
    if r.status = 200 then
      match jsOpt with
      | none => .error (.unboundLocal "js")
      | some js => .ok (js, r.headers)
    else
      match jsOpt with
      | none => .error (.unboundLocal "js")
      | some js =>
        match jsGetMessage js with
        | .ok m => .error (.exnApi m)
        | .error e => .error e

/-- The state of the attribute `self.d`: the built-in endpoint dict,
or — after `loadapi` ran — the whole `(json, headers)` pair that
`GithubApi.get` returned, stored unchanged. -/
inductive DState where
  | dict (m : List (String × String))
  | tuple (js : Json) (hdrs : List (String × String))

/-- The built-in endpoint map from `GithubApi.__init__`. -/
def defaultApiMap : List (String × String) := [
  ("authorizations_url", "https://api.github.com/authorizations"),
  ("code_search_url", "https://api.github.com/search/code?q=\x7bquery\x7d\x7b&page,per_page,sort,order\x7d"),
  ("commit_search_url", "https://api.github.com/search/commits?q=\x7bquery\x7d\x7b&page,per_page,sort,order\x7d"),
  ("current_user_authorizations_html_url", "https://github.com/settings/connections/applications\x7b/client_id\x7d"),
  ("current_user_repositories_url", "https://api.github.com/user/repos\x7b?type,page,per_page,sort\x7d"),
  ("current_user_url", "https://api.github.com/user"),
  ("emails_url", "https://api.github.com/user/emails"),
  ("emojis_url", "https://api.github.com/emojis"),
  ("events_url", "https://api.github.com/events"),
  ("feeds_url", "https://api.github.com/feeds"),
  ("followers_url", "https://api.github.com/user/followers"),
  ("following_url", "https://api.github.com/user/following\x7b/target\x7d"),
  ("gists_url", "https://api.github.com/gists\x7b/gist_id\x7d"),
  ("hub_url", "https://api.github.com/hub"),
  ("issue_search_url", "https://api.github.com/search/issues?q=\x7bquery\x7d\x7b&page,per_page,sort,order\x7d"),
  ("issues_url", "https://api.github.com/issues"),
  ("keys_url", "https://api.github.com/user/keys"),
  ("notifications_url", "https://api.github.com/notifications"),
  ("organization_repositories_url", "https://api.github.com/orgs/\x7borg\x7d/repos\x7b?type,page,per_page,sort\x7d"),
  ("organization_url", "https://api.github.com/orgs/\x7borg\x7d"),
  ("public_gists_url", "https://api.github.com/gists/public"),
  ("rate_limit_url", "https://api.github.com/rate_limit"),
  ("repository_search_url", "https://api.github.com/search/repositories?q=\x7bquery\x7d\x7b&page,per_page,sort,order\x7d"),
  ("repository_url", "https://api.github.com/repos/\x7bowner\x7d/\x7brepo\x7d"),
  ("starred_gists_url", "https://api.github.com/gists/starred"),
  ("starred_url", "https://api.github.com/user/starred\x7b/owner\x7d\x7b/repo\x7d"),
  ("team_url", "https://api.github.com/teams"),
  ("user_organizations_url", "https://api.github.com/user/orgs"),
  ("user_repositories_url", "https://api.github.com/users/\x7buser\x7d/repos\x7b?type,page,per_page,sort\x7d"),
  ("user_search_url", "https://api.github.com/search/users?q=\x7bquery\x7d\x7b&page,per_page,sort,order\x7d"),
  ("user_url", "https://api.github.com/users/\x7buser\x7d")
]

/-- `GithubApi.getapi(apiname)`: `self.d.get(apiname)` followed by
`if not url: raise`.  On a dict, a missing name (Python `None`) and an
empty-string template are both falsy and raise the lookup exception;
on the tuple left behind by `loadapi`, calling `.get` raises
AttributeError. -/
def getapi (d : DState) (apiname : String) : Except PyErr String :=
  match d with
  | .dict m =>
    match m.lookup apiname with
    | some url => if url = "" then .error (.exnCantFindApi apiname) else .ok url
    | none => .error (.exnCantFindApi apiname)
  | .tuple _ _ => .error .attributeError

/-- `GithubApi.loadapi()`: `self.d = await self.get(self.baseurl)` —
the whole `(json, headers)` pair returned by `get` is stored as the
new `self.d`. -/
def loadapi (resp : Json × List (String × String)) : DState :=
  .tuple resp.1 resp.2

/-- Whether an `Except` computation succeeded. -/
def isOkE : Except PyErr α → Bool
  | .ok _ => true
  | .error _ => false

/-- Does the regex fragment `github.com/` match at the head of the
list?  The unescaped `'.'` of the pattern matches any character, so
the seventh position is unconstrained. -/
def githubPatAt : List Char → Bool
  | c0 :: c1 :: c2 :: c3 :: c4 :: c5 :: _ :: c7 :: c8 :: c9 :: c10 :: _ =>
    c0 = 'g' && c1 = 'i' && c2 = 't' && c3 = 'h' && c4 = 'u' && c5 = 'b' &&
    c7 = 'c' && c8 = 'o' && c9 = 'm' && c10 = '/'
  | _ => false

/-- The tail that follows the last occurrence of the (11-character)
`github.com/` pattern, `none` when the pattern never occurs. -/
def afterLastGithub : List Char → Option (List Char)
  | [] => none
  | c :: cs =>
    match afterLastGithub cs with
    | some r => some r
    | none =>
      if githubPatAt (c :: cs) then some (List.drop 11 (c :: cs)) else none

/-- Effect of `re.sub(r'.*github.com/', '', line)` on one
newline-free chunk: the greedy `.*` makes the single match span from
the start through the last occurrence of the pattern, which is
removed; without an occurrence the chunk is unchanged. -/
def stripLine (l : List Char) : List Char :=
  (afterLastGithub l).getD l

/-- Rejoin chunks with a separator character (inverse of `splitAllOn`). -/
def joinWith (sep : Char) : List (List Char) → List Char
  | [] => []
  | [x] => x
  | x :: y :: rest => x ++ sep :: joinWith sep (y :: rest)

/-- `re.sub(r'.*github.com/', '', name)` on a whole string: `.`
never matches a newline, so each line is stripped independently. -/
def subGithub (name : List Char) : List Char :=
  joinWith '\n' ((splitAllOn '\n' name).map stripLine)

/-- `re.match(r'^[^/]+/[^/]+', name)`: at the very start, one or more
non-slash characters, a slash, and one or more non-slash characters,
matched greedily. -/
def matchOwnerRepo (l : List Char) : Option (List Char) :=
  let a := l.takeWhile (fun c => c ≠ '/')
  if a = [] then none
  else
    match l.drop a.length with
    | '/' :: rest =>
      let b := rest.takeWhile (fun c => c ≠ '/')
      if b = [] then none else some (a ++ '/' :: b)
    | _ => none

/-- `sanitizereponame(name)` from `github.py`: strip everything up to
a trailing `github.com/` host prefix, then keep the first two
slash-separated segments; no value when that shape is absent. -/
def sanitizereponame (name : String) : Option String :=
  (matchOwnerRepo (subGithub name.data)).map List.asString

/-- The field accesses `printresult` performs for one item of a query
result, per search domain (`args.where`); printing itself is I/O, but
a missing field raises a KeyError that aborts the run, so the accesses
are what matters. -/
def printItem (whereArg : String) (urls : Bool) (item : Json) : Except PyErr Unit :=
  if whereArg = "code" then do
    _ ← getjs item "repository.full_name"
    _ ← getjs item "path"
    pure ()
  else if whereArg = "issue" then do
    _ ← getjs item "html_url"
    _ ← getjs item "body"
    pure ()
  else if whereArg = "repo" then
    if urls then do
      _ ← getjs item "html_url"
      pure ()
    else do
      _ ← getjs item "size"
      _ ← getjs item "full_name"
      _ ← getjs item "description"
      pure ()
  else if whereArg = "user" then do
    _ ← getjs item "login"
    pure ()
  else pure ()

/-- `printresult(args, where, items)`: process each item in order,
stopping at the first failing field access. -/
def printresult (whereArg : String) (urls : Bool) : List Json → Except PyErr Unit
  | [] => .ok ()
  | item :: rest => do
    printItem whereArg urls item
    printresult whereArg urls rest

/-- One `api.query` response as `querygithub` consumes it: the decoded
JSON body and the value of the `Link` response header (if any).  The
oracle `env p` stands for `await api.query(where, query, p)` — the
search domain and query string are fixed for the whole run, so only
the page number varies. -/
def stepOk (whereArg : String) (urls : Bool)
    (resp : Except PyErr (Json × Option String)) : Bool :=
  match resp with
  | .error _ => false
  | .ok (js, _) =>
    match jsIndex js "items" with
    | .ok (.arr items) => isOkE (printresult whereArg urls items)
    | _ => false

/-- The `for p in range(2, lastpage+1)` loop of `querygithub`:
fetch each page, print its `items`, abort on the first failure.
Returns the pages requested so far together with the outcome.
(Iterating `js["items"]` when it is not a list is modelled as a
TypeError; every theorem below only exercises list-shaped items.) -/
def queryloop (env : Nat → Except PyErr (Json × Option String))
    (whereArg : String) (urls : Bool) :
    List Nat → List Nat → List Nat × Except PyErr Unit
  | trace, [] => (trace, .ok ())
  | trace, p :: ps =>
    match env p with
    | .error e => (trace ++ [p], .error e)
    | .ok (js, _) =>
      match jsIndex js "items" with
      | .error e => (trace ++ [p], .error e)
      | .ok (.arr items) =>
        match printresult whereArg urls items with
        | .error e => (trace ++ [p], .error e)
        | .ok _ => queryloop env whereArg urls (trace ++ [p]) ps
      | .ok _ => (trace ++ [p], .error .typeError)

/-- `querygithub(api, args)` from `github.py`, observed as the list of
page numbers requested plus the final outcome: fetch page 1, parse the
`Link` header with `findlast`, report `total_count` and the page
count, print page-1 results, and when a last page exists and
`args.all` is set, fetch pages `2..lastpage` in order.  (`args.where`
of `repo` is translated to the `repository` search domain before
querying, which does not affect the page trace.) -/
def querygithub (env : Nat → Except PyErr (Json × Option String))
    (whereArg : String) (urls fetchAll : Bool) : List Nat × Except PyErr Unit :=
  match env 1 with
  | .error e => ([1], .error e)
  | .ok (js, link) =>
    match findlast link with
    | .error e => ([1], .error e)
    | .ok lastpage =>
      match getjs js "total_count" with
      | .error e => ([1], .error e)
      | .ok _ =>
        match jsIndex js "items" with
        | .error e => ([1], .error e)
        | .ok (.arr items) =>
          match printresult whereArg urls items with
          | .error e => ([1], .error e)
          | .ok _ =>
            match lastpage with
            | none => ([1], .ok ())
            | some lp =>
              if lp = 0 then ([1], .ok ())
              else if fetchAll then
                queryloop env whereArg urls [1] (List.range' 2 (lp - 1))
              else ([1], .ok ())
        | .ok _ => ([1], .error .typeError)

/-- The field accesses of `printrepoinfo(repo, namefield, args)`,
in the order the format strings evaluate them. -/
def printrepoinfo (urls verbose : Bool) (namefield : String) (repo : Json) :
    Except PyErr Unit :=
  if urls then do
    _ ← getjs repo "html_url"
    pure ()
  else if verbose then do
    _ ← getjs repo "size"
    _ ← getjs repo "created_at"
    _ ← getjs repo "updated_at"
    _ ← getjs repo namefield
    _ ← getjs repo "description"
    pure ()
  else do
    _ ← getjs repo "size"
    _ ← getjs repo namefield
    _ ← getjs repo "description"
    pure ()

/-- Outcome of processing one successfully parsed identifier inside
`inforepos`: the fetch `await api.info(repo)` (oracle `info`) followed
by `printrepoinfo(repo, "full_name", args)`; `none` means both
steps succeeded. -/
def stepRes (info : String → Except PyErr Json) (urls verbose : Bool)
    (repo : String) : Option PyErr :=
  match info repo with
  | .error e => some e
  | .ok js =>
    match printrepoinfo urls verbose "full_name" js with
    | .error e => some e
    | .ok _ => none

/-- One batch entry neither parse-fails nor step-fails. -/
def nameOk (info : String → Except PyErr Json) (urls verbose : Bool)
    (name : String) : Bool :=
  match sanitizereponame name with
  | none => true
  | some repo => (stepRes info urls verbose repo).isNone

/-- Observable trace of an `inforepos` batch: identifiers reported as
unparsable and skipped, repositories for which a fetch was issued (in
order), and the exception that aborted the batch, if any. -/
structure InfoTrace where
  skipped : List String
  fetched : List String
  err : Option PyErr

/-- `inforepos(api, args)` from `github.py`: for each identifier,
sanitize it — on failure report and `continue`; on success fetch the
repository info and print it.  There is no exception handling around
the fetch, so a failing fetch (or print) propagates out of the loop
and ends the batch. -/
def inforepos (info : String → Except PyErr Json) (urls verbose : Bool) :
    List String → InfoTrace
  | [] => ⟨[], [], none⟩
  | name :: rest =>
    match sanitizereponame name with
    | none =>
      let t := inforepos info urls verbose rest
      ⟨name :: t.skipped, t.fetched, t.err⟩
    | some repo =>
      match info repo with
      | .error e => ⟨[], [repo], some e⟩
      | .ok js =>
        match printrepoinfo urls verbose "full_name" js with
        | .error e => ⟨[], [repo], some e⟩
        | .ok _ =>
          let t := inforepos info urls verbose rest
          ⟨t.skipped, repo :: t.fetched, t.err⟩

/-- Concrete search-response oracle for the pagination theorems:
every page is a well-formed empty result page, and page 1 carries a
`Link` header whose `rel="last"` entry names page 3. -/
def env0 : Nat → Except PyErr (Json × Option String) := fun p =>
  .ok (.obj [("total_count", .num 0), ("items", .arr [])],
       if p = 1 then some "<https://u?q=x&page=3>; rel=\x22last\x22" else none)

/-- Concrete fetch oracle for the batch theorems: fetching `err/b`
fails with the API error a 404 produces, every other repository
returns a well-formed record. -/
def info0 : String → Except PyErr Json := fun r =>
  if r = "err/b" then .error (.exnApi (some (.str "Not Found")))
  else .ok (.obj [("size", .num 1), ("full_name", .str "x"), ("description", .null)])

theorem splitAllOn_ne_nil (sep : Char) : ∀ l, splitAllOn sep l ≠ []
  | [] => by simp [splitAllOn]
  | c :: cs => by
    simp only [splitAllOn]
    split
    · simp
    · split <;> simp

theorem joinWith_cons (sep c : Char) (s : List Char) (ss : List (List Char)) :
    joinWith sep ((c :: s) :: ss) = c :: joinWith sep (s :: ss) := by
  cases ss <;> rfl

theorem joinWith_splitAllOn (sep : Char) : ∀ l, joinWith sep (splitAllOn sep l) = l
  | [] => rfl
  | c :: cs => by
    simp only [splitAllOn]
    by_cases h : c = sep
    · rw [if_pos h]
      cases hs : splitAllOn sep cs with
      | nil => exact absurd hs (splitAllOn_ne_nil sep cs)
      | cons y r =>
        simp only [joinWith, List.nil_append]
        rw [← hs, joinWith_splitAllOn sep cs, h]
    · rw [if_neg h]
      cases hs : splitAllOn sep cs with
      | nil => exact absurd hs (splitAllOn_ne_nil sep cs)
      | cons s ss =>
        rw [joinWith_cons, ← hs, joinWith_splitAllOn sep cs]

theorem mem_splitAllOn (sep : Char) :
    ∀ (l x : List Char), x ∈ splitAllOn sep l → ∀ c ∈ x, c ∈ l
  | [], x, hx, c, hc => by
    simp [splitAllOn] at hx
    subst hx
    exact absurd hc (List.not_mem_nil c)
  | a :: as, x, hx, c, hc => by
    simp only [splitAllOn] at hx
    by_cases h : a = sep
    · rw [if_pos h] at hx
      rcases List.mem_cons.mp hx with h1 | h1
      · subst h1; exact absurd hc (List.not_mem_nil c)
      · exact List.mem_cons_of_mem a (mem_splitAllOn sep as x h1 c hc)
    · rw [if_neg h] at hx
      cases hs : splitAllOn sep as with
      | nil => exact absurd hs (splitAllOn_ne_nil sep as)
      | cons s ss =>
        rw [hs] at hx
        rcases List.mem_cons.mp hx with h1 | h1
        · subst h1
          rcases List.mem_cons.mp hc with h2 | h2
          · rw [h2]; exact List.mem_cons_self a as
          · refine List.mem_cons_of_mem a ?_
            exact mem_splitAllOn sep as s (hs ▸ List.mem_cons_self s ss) c h2
        · refine List.mem_cons_of_mem a ?_
          exact mem_splitAllOn sep as x (hs ▸ List.mem_cons_of_mem s h1) c hc

theorem githubPatAt_slash (l : List Char) (h : githubPatAt l = true) : '/' ∈ l := by
  unfold githubPatAt at h
  split at h
  · simp only [Bool.and_eq_true, decide_eq_true_eq] at h
    have h10 := h.2
    subst h10
    simp
  · exact absurd h (by simp)

theorem afterLastGithub_none : ∀ l : List Char, '/' ∉ l → afterLastGithub l = none
  | [], _ => rfl
  | c :: cs, h => by
    have hcs : '/' ∉ cs := fun hm => h (List.mem_cons_of_mem c hm)
    simp only [afterLastGithub, afterLastGithub_none cs hcs]
    cases hg : githubPatAt (c :: cs) with
    | true => exact absurd (githubPatAt_slash _ hg) h
    | false => rfl

theorem matchOwnerRepo_none (l : List Char) (h : '/' ∉ l) : matchOwnerRepo l = none := by
  have ht : l.takeWhile (fun c => c ≠ '/') = l :=
    List.takeWhile_eq_self_iff.mpr (fun x hx => by
      simp only [ne_eq, decide_eq_true_eq]
      exact fun hx2 => h (hx2 ▸ hx))
  unfold matchOwnerRepo
  simp only [ht]
  by_cases hl : l = []
  · rw [if_pos hl]
  · rw [if_neg hl, List.drop_length]

theorem subGithub_no_slash (l : List Char) (h : '/' ∉ l) : subGithub l = l := by
  unfold subGithub
  have hmap : (splitAllOn '\n' l).map stripLine = splitAllOn '\n' l := by
    conv_rhs => rw [← List.map_id (splitAllOn '\n' l)]
    apply List.map_congr_left
    intro x hx
    have hxs : '/' ∉ x := fun hc => h (mem_splitAllOn '\n' l x hx '/' hc)
    unfold stripLine
    rw [afterLastGithub_none x hxs]
    rfl
  rw [hmap, joinWith_splitAllOn]

/-- C9: the identifier sanitizer extracts `foo/bar` from the
URL-decorated identifier `https://github.com/foo/bar/issues/1`
(everything up to the host prefix is stripped and only the first two
slash-separated segments are kept), and an identifier containing no
slash, such as `not-a-repo`, yields a parse failure (no value). -/
theorem sanitizereponame_extracts_owner_repo :
    sanitizereponame "https://github.com/foo/bar/issues/1" = some "foo/bar" ∧
    ∀ name : String, '/' ∉ name.data → sanitizereponame name = none := by
  constructor
  · rfl
  · intro name h
    unfold sanitizereponame
    rw [subGithub_no_slash name.data h, matchOwnerRepo_none name.data h]
    rfl

/-- Witness for C9 at the concrete slash-free identifier `not-a-repo`. -/
theorem sanitizereponame_extracts_owner_repo_witness :
    sanitizereponame "not-a-repo" = none :=
  sanitizereponame_extracts_owner_repo.2 "not-a-repo" (by decide)

/-- C1 (code bug): on a non-empty `Link` header with no `rel="last"`
entry, `findlast` does not return "no last page" — the loop never
assigns the local variable `last`, so the `if not last` test raises
UnboundLocalError.  (The dead guard `if not last: return` shows the
author intended to return no value here.)  Evaluating the embedded
code at the failing header from the claim. -/
theorem findlast_crashes_without_rel_last :
    findlast (some "<https://api.github.com/search/code?q=x&page=2>; rel=\x22next\x22")
      = .error (.unboundLocal "last") := rfl

/-- C5 (code bug): every name baked into the default endpoint map
resolves before `loadapi`, but `loadapi` stores the whole
`(json, headers)` pair returned by `get` as the new `self.d`, so after
it runs `getapi` raises AttributeError (`tuple` has no `.get`) for
every name — the endpoint map is not replaced by the discovery
document, it is destroyed. -/
theorem loadapi_breaks_getapi :
    (∀ name ∈ defaultApiMap.map Prod.fst,
        isOkE (getapi (.dict defaultApiMap) name) = true) ∧
    ∀ (resp : Json × List (String × String)) (name : String),
        getapi (loadapi resp) name = .error .attributeError := by
  constructor
  · decide
  · intro resp name
    rfl

theorem pyFind_eq_neg_one (c : Char) : ∀ l : List Char, c ∉ l → pyFind l c = -1
  | [], _ => rfl
  | x :: xs, h => by
    have hxc : ¬ x = c := fun hx => h (List.mem_cons.mpr (Or.inl hx.symm))
    simp only [pyFind]
    rw [if_neg hxc, pyFind_eq_neg_one c xs fun hm => h (List.mem_cons_of_mem x hm)]
    norm_num

theorem splitOnce1_of_mem (ch : Char) : ∀ l : List Char, ch ∈ l →
    splitOnce1 ch l =
      some (l.takeWhile (fun c => c ≠ ch), (l.dropWhile (fun c => c ≠ ch)).tail)
  | c :: cs, h => by
    by_cases hc : c = ch
    · simp [splitOnce1, List.takeWhile_cons, List.dropWhile_cons, hc]
    · have hm : ch ∈ cs := by
        rcases List.mem_cons.mp h with h1 | h1
        · exact absurd h1.symm hc
        · exact h1
      simp only [splitOnce1, if_neg hc, splitOnce1_of_mem ch cs hm,
        List.takeWhile_cons, List.dropWhile_cons]
      simp [hc]

/-- C7: with a provided (non-empty) credential string, exactly one
authentication mechanism is ever active; a first `':'` at index > 0
selects basic authentication with the part before the first `':'` as
the user and the rest as the password, and a string without `':'`
becomes an `Authorization: token <value>` header. -/
theorem initAuth_exactly_one_mechanism (a : String) (h : a ≠ "") :
    (((initAuth (some a)).basic.isSome && (initAuth (some a)).tokenHeader.isSome) = false ∧
     ((initAuth (some a)).basic.isSome || (initAuth (some a)).tokenHeader.isSome) = true) ∧
    (pyFind a.data ':' > 0 →
      initAuth (some a) =
        ⟨some (List.asString (a.data.takeWhile (fun c => c ≠ ':')),
               List.asString ((a.data.dropWhile (fun c => c ≠ ':')).tail)), none⟩) ∧
    (':' ∉ a.data → initAuth (some a) = ⟨none, some ("token " ++ a)⟩) := by
  have hd : a.data ≠ [] := fun hnil => h (String.ext hnil)
  by_cases hp : pyFind a.data ':' > 0
  · have hmem : ':' ∈ a.data := by
      by_contra hn
      rw [pyFind_eq_neg_one ':' a.data hn] at hp
      norm_num at hp
    have hform : initAuth (some a) =
        ⟨some (List.asString (a.data.takeWhile (fun c => c ≠ ':')),
               List.asString ((a.data.dropWhile (fun c => c ≠ ':')).tail)), none⟩ := by
      simp only [initAuth]
      rw [if_neg hd, if_pos hp, splitOnce1_of_mem ':' a.data hmem]
    refine ⟨by rw [hform]; exact ⟨rfl, rfl⟩, fun _ => hform, fun hn => absurd hmem hn⟩
  · have hform : initAuth (some a) = ⟨none, some ("token " ++ a)⟩ := by
      simp only [initAuth]
      rw [if_neg hd, if_neg hp]
    exact ⟨by rw [hform]; exact ⟨rfl, rfl⟩, fun hp2 => absurd hp2 hp, fun _ => hform⟩

/-- Witness for C7 at the credential `alice:secret123` from the claim:
basic authentication with user `alice` and password `secret123`, and
no token header. -/
theorem initAuth_exactly_one_mechanism_witness :
    initAuth (some "alice:secret123") = ⟨some ("alice", "secret123"), none⟩ :=
  (initAuth_exactly_one_mechanism "alice:secret123" (by decide)).2.1 (by decide)

/-- C10: a non-empty credential whose only `':'` is its first
character fails the `find(':') > 0` test, so basic authentication is
not selected and the whole string, colon included, becomes the
`Authorization: token <value>` header. -/
theorem initAuth_leading_colon_token (a : String) (rest : List Char)
    (hdata : a.data = ':' :: rest) (hrest : ':' ∉ rest) :
    initAuth (some a) = ⟨none, some ("token " ++ a)⟩ := by
  simp only [initAuth]
  rw [if_neg (by rw [hdata]; exact List.cons_ne_nil ':' rest)]
  rw [if_neg (by rw [hdata]; simp [pyFind])]

/-- Witness for C10 at the credential `:secret` from the claim. -/
theorem initAuth_leading_colon_token_witness :
    initAuth (some ":secret") = ⟨none, some "token :secret"⟩ :=
  initAuth_leading_colon_token ":secret" "secret".data rfl (by decide)

theorem getjsGo_of_lookupPath :
    ∀ (pre : List String) (js v : Json), lookupPath js pre = some v →
      ∀ l, getjsGo js (pre ++ l) = getjsGo v l
  | [], js, v, h, l => by
    simp only [lookupPath, Option.some.injEq] at h
    subst h
    rfl
  | k :: rest, js, v, h, l => by
    cases js with
    | obj kvs =>
      simp only [lookupPath] at h
      cases hk : kvs.lookup k with
      | none => rw [hk] at h; exact absurd h (by simp)
      | some w =>
        rw [hk] at h
        have := getjsGo_of_lookupPath rest w v h l
        simp only [List.cons_append, getjsGo, jsIndex, hk]
        exact this
    | null => exact absurd h (by simp [lookupPath])
    | bool b => exact absurd h (by simp [lookupPath])
    | num n => exact absurd h (by simp [lookupPath])
    | str s => exact absurd h (by simp [lookupPath])
    | arr items => exact absurd h (by simp [lookupPath])

/-- C3 (amended): for every nested structure and every dot-path whose
segment list is `segs`, when a value sits at that path `getjs` returns
exactly it; when a prefix of the path resolves to a mapping that lacks
the next segment, `getjs` fails with a KeyError naming that offending
segment — and only the segment, not the path so far. -/
theorem getjs_resolution (js : Json) (path : String) (segs : List String)
    (hsplit : (splitAllOn '.' path.data).map List.asString = segs) :
    (∀ v, lookupPath js segs = some v → getjs js path = .ok v) ∧
    (∀ pre k rest kvs, segs = pre ++ k :: rest →
        lookupPath js pre = some (.obj kvs) → kvs.lookup k = none →
        getjs js path = .error (.keyError k)) := by
  constructor
  · intro v hv
    unfold getjs
    rw [hsplit]
    have := getjsGo_of_lookupPath segs js v hv []
    simpa using this
  · intro pre k rest kvs hsegs hpre hk
    unfold getjs
    rw [hsplit, hsegs, getjsGo_of_lookupPath pre js (.obj kvs) hpre (k :: rest)]
    simp [getjsGo, jsIndex, hk]

/-- Witness for C3 at a concrete nested structure and path. -/
theorem getjs_resolution_witness :
    getjs (.obj [("a", .obj [("b", .num 7)])]) "a.b" = .ok (.num 7) :=
  (getjs_resolution (.obj [("a", .obj [("b", .num 7)])]) "a.b" ["a", "b"] rfl).1
    (.num 7) rfl

/-- C3 counterexample to the claim as stated: the not-found error
carries only the final missing segment.  Resolving `a.c` and `b.c`
against the same structure fails at different paths-so-far (`a` versus
`b`) yet produces the identical error `KeyError "c"`, so the error
does not identify the path so far: the resolver's failure is not
path-aware. -/
theorem getjs_error_forgets_path_prefix :
    getjs (.obj [("a", .obj []), ("b", .obj [])]) "a.c" = .error (.keyError "c") ∧
    getjs (.obj [("a", .obj []), ("b", .obj [])]) "b.c" = .error (.keyError "c") :=
  ⟨rfl, rfl⟩

/-- C8: for a non-200 response whose body decoded to a mapping, `get`
raises the API error carrying the `message` field of the decoded body
— the service-reported message when present, and the Python `None`
placeholder (`dict.get` default) when the field is absent. -/
theorem get_non200_raises_api_message (r : HttpResponse) (kvs : List (String × Json))
    (hdec : decodeStep r = .ok (some (.obj kvs))) (hst : r.status ≠ 200) :
    GithubApi.get r = .error (.exnApi (kvs.lookup "message")) := by
  unfold GithubApi.get
  simp only [hdec]
  rw [if_neg hst]
  rfl

/-- Witness for C8 at the concrete response from the claim: status 401
with body `{"message": "Bad credentials"}` raises the API error
carrying `Bad credentials`. -/
theorem get_non200_raises_api_message_witness :
    GithubApi.get ⟨401, [], .ok (.obj [("message", .str "Bad credentials")]), .error .decodeError, []⟩
      = .error (.exnApi (some (.str "Bad credentials"))) :=
  get_non200_raises_api_message
    ⟨401, [], .ok (.obj [("message", .str "Bad credentials")]), .error .decodeError, []⟩
    [("message", .str "Bad credentials")] rfl (by decide)

/-- C4 counterexample to the claim as stated: a response whose body
fails JSON decoding (`jsonBody` is the original decode failure
`decodeError`) and does not start with the gzip magic bytes.  The
claim says the original decode failure is propagated; instead the
`except` clause falls through without re-raising, `js` stays unbound,
and `get` fails with UnboundLocalError on `js` — a different error. -/
theorem get_decode_failure_swallowed :
    GithubApi.get ⟨200, [0, 1], .error .decodeError, .error .decodeError, []⟩
      = .error (.unboundLocal "js") ∧
    PyErr.unboundLocal "js" ≠ PyErr.decodeError :=
  ⟨rfl, by simp⟩

/-- C4 (amended): when JSON decoding fails, the gzip fallback is
attempted only on a body starting with the magic bytes `0x1f 0x8b`:
on success its value is used; on failure the fallback's own error
propagates (not the original decode failure).  When the body lacks
the magic bytes, the decode failure is swallowed and `get` instead
fails with an unbound-variable error on `js`. -/
theorem get_gzip_fallback (r : HttpResponse) (e : PyErr) (hj : r.jsonBody = .error e) :
    (gzipMagic r.content = false → GithubApi.get r = .error (.unboundLocal "js")) ∧
    (∀ e2, gzipMagic r.content = true → r.gunzipJson = .error e2 →
        GithubApi.get r = .error e2) ∧
    (∀ js, gzipMagic r.content = true → r.gunzipJson = .ok js → r.status = 200 →
        GithubApi.get r = .ok (js, r.headers)) := by
  refine ⟨fun hmag => ?_, fun e2 hmag hgz => ?_, fun js hmag hgz hst => ?_⟩
  · unfold GithubApi.get decodeStep
    simp only [hj, hmag, Bool.false_eq_true, if_false]
    by_cases hs : r.status = 200
    · rw [if_pos hs]
    · rw [if_neg hs]
  · unfold GithubApi.get decodeStep
    simp only [hj, hmag, if_true, hgz]
  · unfold GithubApi.get decodeStep
    simp only [hj, hmag, if_true, hgz]
    rw [if_pos hst]

/-- Witness for C4: decoding fails, the body starts with the gzip
magic bytes, and the fallback succeeds, so its value is returned. -/
theorem get_gzip_fallback_witness :
    GithubApi.get ⟨200, [31, 139, 0], .error .decodeError, .ok (.obj []), []⟩ = .ok (.obj [], []) :=
  (get_gzip_fallback ⟨200, [31, 139, 0], .error .decodeError, .ok (.obj []), []⟩
    .decodeError rfl).2.2 (.obj []) rfl rfl rfl

theorem queryloop_all_ok (env : Nat → Except PyErr (Json × Option String))
    (whereArg : String) (urls : Bool) :
    ∀ (ps : List Nat) (trace : List Nat),
      (∀ p ∈ ps, stepOk whereArg urls (env p) = true) →
      queryloop env whereArg urls trace ps = (trace ++ ps, .ok ())
  | [], trace, _ => by simp [queryloop]
  | p :: ps, trace, h => by
    have hp := h p (List.mem_cons_self p ps)
    have hps : ∀ q ∈ ps, stepOk whereArg urls (env q) = true :=
      fun q hq => h q (List.mem_cons_of_mem p hq)
    cases he : env p with
    | error e => simp [stepOk, he] at hp
    | ok pr =>
      obtain ⟨js, link⟩ := pr
      cases hit : jsIndex js "items" with
      | error e2 => simp [stepOk, he, hit] at hp
      | ok v =>
        cases v with
        | arr items =>
          cases hpr : printresult whereArg urls items with
          | error e3 => simp [stepOk, he, hit, hpr, isOkE] at hp
          | ok u =>
            simp only [queryloop, he, hit, hpr]
            rw [queryloop_all_ok env whereArg urls ps (trace ++ [p]) hps]
            simp
        | null => simp [stepOk, he, hit] at hp
        | bool b => simp [stepOk, he, hit] at hp
        | num n => simp [stepOk, he, hit] at hp
        | str s => simp [stepOk, he, hit] at hp
        | obj kvs => simp [stepOk, he, hit] at hp

/-- C2: whenever the page-1 response of a search carries a `Link`
header whose `rel="last"` entry reports last page `lp` (with at least
one page) and every page of the run is a well-formed result page,
running the search with `fetchAll` set issues exactly the requests for
pages `1, 2, ..., lp` — `lp` requests in total, in strictly increasing
page order (pages `2..lp` fetched sequentially after page 1); for
`lp = 3` that is exactly the 3 requests for pages 1, 2 and 3. -/
theorem querygithub_fetchall_pages
    (env : Nat → Except PyErr (Json × Option String)) (whereArg : String) (urls : Bool)
    (lp : Nat) (js1 : Json) (link1 : Option String)
    (h1 : env 1 = .ok (js1, link1))
    (h2 : findlast link1 = .ok (some lp))
    (h3 : 1 ≤ lp)
    (h4 : isOkE (getjs js1 "total_count") = true)
    (h5 : stepOk whereArg urls (env 1) = true)
    (h6 : ∀ p ∈ List.range' 2 (lp - 1), stepOk whereArg urls (env p) = true) :
    querygithub env whereArg urls true = (List.range' 1 lp, .ok ()) ∧
    List.Pairwise (· < ·) (List.range' 1 lp) := by
  have hrange : List.range' 1 lp = 1 :: List.range' 2 (lp - 1) := by
    conv_lhs => rw [show lp = lp - 1 + 1 from (Nat.succ_pred_eq_of_pos h3).symm]
    rfl
  refine ⟨?_, List.pairwise_lt_range' 1 lp⟩
  rw [h1] at h5
  cases hg : getjs js1 "total_count" with
  | error e => rw [hg] at h4; simp [isOkE] at h4
  | ok tc =>
    cases hit : jsIndex js1 "items" with
    | error e => simp [stepOk, hit] at h5
    | ok v =>
      cases v with
      | arr items =>
        cases hpr : printresult whereArg urls items with
        | error e => simp [stepOk, hit, hpr, isOkE] at h5
        | ok u =>
          simp only [querygithub, h1, h2, hg, hit, hpr]
          rw [if_neg (by omega : ¬ lp = 0)]
          simp only [if_true]
          rw [queryloop_all_ok env whereArg urls (List.range' 2 (lp - 1)) [1] h6, hrange]
          simp
      | null => simp [stepOk, hit] at h5
      | bool b => simp [stepOk, hit] at h5
      | num n => simp [stepOk, hit] at h5
      | str s => simp [stepOk, hit] at h5
      | obj kvs => simp [stepOk, hit] at h5

/-- Witness for C2 at the concrete oracle `env0`, whose page-1 `Link`
header reports last page 3: exactly the requests for pages 1, 2, 3. -/
theorem querygithub_fetchall_pages_witness :
    querygithub env0 "code" false true = (List.range' 1 3, .ok ()) ∧
    List.Pairwise (· < ·) (List.range' 1 3) :=
  querygithub_fetchall_pages env0 "code" false 3
    (.obj [("total_count", .num 0), ("items", .arr [])])
    (some "<https://u?q=x&page=3>; rel=\x22last\x22")
    rfl rfl (by decide) (by decide) (by decide) (by decide)

theorem inforepos_all_ok (info : String → Except PyErr Json) (urls verbose : Bool) :
    ∀ names : List String,
      (∀ name ∈ names, nameOk info urls verbose name = true) →
      inforepos info urls verbose names =
        ⟨names.filter (fun n => (sanitizereponame n).isNone),
         names.filterMap sanitizereponame, none⟩
  | [], _ => rfl
  | name :: rest, h => by
    have hn := h name (List.mem_cons_self name rest)
    have hr : ∀ q ∈ rest, nameOk info urls verbose q = true :=
      fun q hq => h q (List.mem_cons_of_mem name hq)
    have ih := inforepos_all_ok info urls verbose rest hr
    cases hs : sanitizereponame name with
    | none =>
      simp [inforepos, hs, ih, List.filter_cons, List.filterMap_cons]
    | some repo =>
      simp only [nameOk, hs] at hn
      have hstep : stepRes info urls verbose repo = none :=
        Option.isNone_iff_eq_none.mp hn
      cases hi : info repo with
      | error e =>
        simp only [stepRes, hi] at hstep
        exact absurd hstep (by simp)
      | ok js =>
        cases hp : printrepoinfo urls verbose "full_name" js with
        | error e =>
          simp only [stepRes, hi, hp] at hstep
          exact absurd hstep (by simp)
        | ok u =>
          simp [inforepos, hs, hi, hp, ih, List.filter_cons, List.filterMap_cons]

theorem inforepos_aborts (info : String → Except PyErr Json) (urls verbose : Bool)
    (bad r : String) (e : PyErr) (post : List String)
    (hbad : sanitizereponame bad = some r)
    (hstep : stepRes info urls verbose r = some e) :
    ∀ pre : List String,
      (∀ name ∈ pre, nameOk info urls verbose name = true) →
      inforepos info urls verbose (pre ++ bad :: post) =
        ⟨pre.filter (fun n => (sanitizereponame n).isNone),
         pre.filterMap sanitizereponame ++ [r], some e⟩
  | [], _ => by
    cases hi : info r with
    | error e2 =>
      simp only [stepRes, hi, Option.some.injEq] at hstep
      subst hstep
      simp [inforepos, hbad, hi]
    | ok js =>
      cases hp : printrepoinfo urls verbose "full_name" js with
      | error e2 =>
        simp only [stepRes, hi, hp, Option.some.injEq] at hstep
        subst hstep
        simp [inforepos, hbad, hi, hp]
      | ok u =>
        simp only [stepRes, hi, hp] at hstep
        exact absurd hstep (by simp)
  | name :: pre, h => by
    have hn := h name (List.mem_cons_self name pre)
    have hr : ∀ q ∈ pre, nameOk info urls verbose q = true :=
      fun q hq => h q (List.mem_cons_of_mem name hq)
    have ih := inforepos_aborts info urls verbose bad r e post hbad hstep pre hr
    cases hs : sanitizereponame name with
    | none =>
      simp [inforepos, hs, ih, List.filter_cons, List.filterMap_cons]
    | some repo =>
      simp only [nameOk, hs] at hn
      have hone : stepRes info urls verbose repo = none :=
        Option.isNone_iff_eq_none.mp hn
      cases hi : info repo with
      | error e2 =>
        simp only [stepRes, hi] at hone
        exact absurd hone (by simp)
      | ok js =>
        cases hp : printrepoinfo urls verbose "full_name" js with
        | error e2 =>
          simp only [stepRes, hi, hp] at hone
          exact absurd hone (by simp)
        | ok u =>
          simp [inforepos, hs, hi, hp, ih, List.filter_cons, List.filterMap_cons]

/-- C6 (amended): in the repository-info batch, an identifier that
fails to parse is reported and skipped without aborting the batch, and
when every fetch (and print) succeeds, every successfully parsed
identifier of the batch is fetched, in order.  But the fetches are not
independent: a failure while fetching (or printing) one identifier
propagates out of the loop, so the identifiers after it are not
processed. -/
theorem inforepos_batch_behavior (info : String → Except PyErr Json)
    (urls verbose : Bool) :
    (∀ names : List String,
       (∀ name ∈ names, nameOk info urls verbose name = true) →
       inforepos info urls verbose names =
         ⟨names.filter (fun n => (sanitizereponame n).isNone),
          names.filterMap sanitizereponame, none⟩) ∧
    (∀ (pre : List String) (bad : String) (post : List String) (r : String) (e : PyErr),
       (∀ name ∈ pre, nameOk info urls verbose name = true) →
       sanitizereponame bad = some r →
       stepRes info urls verbose r = some e →
       inforepos info urls verbose (pre ++ bad :: post) =
         ⟨pre.filter (fun n => (sanitizereponame n).isNone),
          pre.filterMap sanitizereponame ++ [r], some e⟩) :=
  ⟨fun names h => inforepos_all_ok info urls verbose names h,
   fun pre bad post r e h hbad hstep =>
     inforepos_aborts info urls verbose bad r e post hbad hstep pre h⟩

/-- Witness for C6: a batch whose middle identifier fails to parse is
reported and skipped while both parseable identifiers are fetched. -/
theorem inforepos_batch_behavior_witness :
    inforepos info0 false false ["ok/a", "bad", "later/c"] =
      ⟨["bad"], ["ok/a", "later/c"], none⟩ :=
  (inforepos_batch_behavior info0 false false).1 ["ok/a", "bad", "later/c"] (by decide)

/-- C6 counterexample to the claim as stated: in the batch
`["ok/a", "bad", "err/b", "later/c"]` under `info0`, the unparsable
`bad` is skipped as claimed, but the fetch failure at `err/b` aborts
the batch: the perfectly parseable `later/c` (second conjunct) is
never fetched — the fetched list stops at `err/b` — so one failure
does block subsequent lookups. -/
theorem inforepos_fetch_failure_aborts_batch :
    inforepos info0 false false ["ok/a", "bad", "err/b", "later/c"] =
      ⟨["bad"], ["ok/a", "err/b"], some (.exnApi (some (.str "Not Found")))⟩ ∧
    sanitizereponame "later/c" = some "later/c" :=
  ⟨rfl, rfl⟩
